import Mathlib

/-!
Verification of the Study-Plan composition and validation engine.

The definitions below are a shallow embedding of the Python source
(`app2.py`, the current application; `app.py` is the earlier iteration and
agrees with `app2.py` on everything embedded here except where noted).
Python strings are modelled as Lean `String` over their character lists;
`str.strip`, `str.upper`, `str.lower` and `int(...)` are modelled on the
ASCII fragment, matching CPython behaviour there.
-/

namespace StudyPlan

/-- Course record: the dict built by `make_course` in app2.py. -/
structure Course where
  name : String
  code : String
  cfu : Nat
  dept : String
  year : String
  semester : String
  links : List String
deriving DecidableEq

/-- Characters removed by Python `str.strip()` (ASCII whitespace). -/
def isPySpace (c : Char) : Bool :=
  c = ' ' || c = '\t' || c = '\n' || c = '\r' || c = Char.ofNat 11 || c = Char.ofNat 12

/-- Model of Python `str.strip()` on the character list. -/
def pyStrip (l : List Char) : List Char :=
  ((l.dropWhile isPySpace).reverse.dropWhile isPySpace).reverse

/-- Model of Python `str.upper()` on one ASCII character. -/
def pyUpperChar (c : Char) : Char :=
  if 'a' ≤ c ∧ c ≤ 'z' then Char.ofNat (c.toNat - 32) else c

/-- Model of Python `str.lower()` on one ASCII character. -/
def pyLowerChar (c : Char) : Char :=
  if 'A' ≤ c ∧ c ≤ 'Z' then Char.ofNat (c.toNat + 32) else c

/-- Model of `str(code).strip().upper()`, the code normalization used by app2.py. -/
def normalize_code (s : String) : String := ⟨(pyStrip s.data).map pyUpperChar⟩

/-- Model of `name.strip().lower()`, the name normalization used by app2.py. -/
def normalize_name (s : String) : String := ⟨(pyStrip s.data).map pyLowerChar⟩

/-- The semester spelling table of `make_course` (app2.py lines 28-34). -/
def normalize_semester (semester : String) : String :=
  let s : String := ⟨pyStrip semester.data⟩
  if s = "I" ∨ s = "1" ∨ s = "First" ∨ s = "first" then "first"
  else if s = "II" ∨ s = "2" ∨ s = "Second" ∨ s = "second" then "second"
  else if s = "first&Second" ∨ s = "First&Second" ∨ s = "first&second" then "first&second"
  else s

/-- Model of `make_course` (app2.py lines 18-43): normalization on construction. -/
def make_course (name code : String) (cfu : Nat) (dept year semester : String)
    (links : List String) : Course :=
  { name := name, code := code, cfu := cfu, dept := dept, year := year,
    semester := normalize_semester semester, links := links }

/-- Decimal digit characters of a natural number, fuel-driven so that it
reduces in the kernel; `natDigitsAux (n+1) n` matches Python `str(n)`. -/
def natDigitsAux : Nat → Nat → List Char
  | 0, _ => []
  | fuel + 1, n =>
    if n < 10 then [Char.ofNat (48 + n)]
    else natDigitsAux fuel (n / 10) ++ [Char.ofNat (48 + n % 10)]

/-- Model of Python `str(n)` for a nonnegative integer. -/
def natDigits (n : Nat) : List Char := natDigitsAux (n + 1) n

/-- Model of `course_label` (app2.py line 46): the picker label string. -/
def course_label (c : Course) : String :=
  c.name ++ " (" ++ c.code ++ ", " ++ (⟨natDigits c.cfu⟩ : String) ++ " CFU)"

/-- FIXED_COMPONENTS (app2.py lines 62-66): the invariant last three plan rows. -/
def FIXED_COMPONENTS : List Course :=
  [make_course "ALTRE ATTIVITA" "12568" 6 "DIETI – LM Data Science" "Second" "second" [],
   make_course "TESI DI LAUREA" "U2848" 16 "DIETI – LM Data Science" "Second" "second" [],
   make_course "TIROCINIO/STAGE" "U4319" 8 "DIETI – LM Data Science" "Second" "second" []]

/-- Normalized curricular code set (app2.py line 1082), as the list of values. -/
def curr_codes (curricular_list : List Course) : List String :=
  curricular_list.map (fun c => normalize_code c.code)

/-- Normalized curricular name set (app2.py line 1083), as the list of values. -/
def curr_names (curricular_list : List Course) : List String :=
  curricular_list.map (fun c => normalize_name c.name)

/-- Ban-rule lookup `banned_by_subpath.get(sub_choice, set())` (app2.py line 1093). -/
def banned_codes (banned_by_subpath : List (String × List String)) (sub_choice : String) :
    List String :=
  match banned_by_subpath.lookup sub_choice with
  | some b => b
  | none => []

/-- The eligibility filter (app2.py lines 1108-1113): keep a pool course iff its
normalized code collides with no curricular code, its normalized name collides
with no curricular name, and its normalized code is not banned. -/
def available_free_courses (pool curricular_list : List Course) (banned : List String) :
    List Course :=
  pool.filter (fun fc =>
    !((curr_codes curricular_list).contains (normalize_code fc.code))
    && !((curr_names curricular_list).contains (normalize_name fc.name))
    && !(banned.contains (normalize_code fc.code)))

/-- Catalogue-mode selection (app2.py lines 1123-1125): the chosen courses are
recovered by filtering the available list against the selected labels. -/
def selected_free (available : List Course) (selection_labels : List String) : List Course :=
  available.filter (fun c => selection_labels.contains (course_label c))

/-- Spec-side description of catalogue-mode selection order (spec section 4.4):
the chosen courses listed in the insertion order of the selected labels. -/
def selected_free_by_insertion (available : List Course) (selection_labels : List String) :
    List Course :=
  selection_labels.filterMap (fun l => available.find? (fun c => course_label c == l))

/-- Sum of the cfu fields of a course list. -/
def cfu_sum (l : List Course) : Nat := (l.map Course.cfu).sum

/-- fixed_total (app2.py line 1202). -/
def fixed_total : Nat := cfu_sum FIXED_COMPONENTS

/-- current_total (app2.py lines 1202-1206). -/
def current_total (curricular_list chosen_free : List Course) : Nat :=
  fixed_total + cfu_sum curricular_list + cfu_sum chosen_free

/-- excess = max(0, current_total - 60) (app2.py line 1207). -/
def excess (total : Nat) : Nat := max 0 (total - 60)

/-- n_free_required (app2.py line 1078). -/
def n_free_required (plan_is_psi : Bool) : Nat := if plan_is_psi then 3 else 2

/-- The three overage outcomes of app2.py lines 1220-1225. -/
inductive OverageMsg where
  | noMsg
  | warnMsg
  | errMsg
deriving DecidableEq

/-- Overage messages (app2.py lines 1220-1225): warn on a soft overage, error on
a hard one. -/
def overage_msg (total : Nat) : OverageMsg :=
  if 0 < excess total ∧ excess total ≤ 6 then .warnMsg
  else if excess total > 6 then .errMsg
  else .noMsg

/-- requires_approval (app2.py line 1228). -/
def requires_approval (plan_is_psi using_custom : Bool) (total : Nat) : Bool :=
  plan_is_psi || using_custom || decide (excess total > 0)

/-- Watermark choice (app2.py line 1286). -/
def watermark_text (ra : Bool) : Option String :=
  if ra then some "To Be Approved" else none

/-- can_generate_catalogue (app2.py lines 1230-1235). -/
def can_generate_catalogue (plan_is_psi using_custom : Bool)
    (sel curricular_list : List Course) : Bool :=
  !using_custom
  && decide (sel.length = n_free_required plan_is_psi)
  && (!plan_is_psi || decide (current_total curricular_list sel ≥ 60))
  && decide (current_total curricular_list sel ≤ 66)

/-- Blocking flag of the Budget Evaluator as the spec states it (section 4.3):
block on a hard overage, or in PSI mode below the 60-credit floor. This
definition follows the words of the spec, to be compared with the code. -/
def budget_blocking_spec (plan_is_psi : Bool) (total : Nat) : Bool :=
  decide (excess total > 6) || (plan_is_psi && decide (total < 60))

/-- The plan composer (app2.py lines 1272-1284); the catalog stores exactly two
curricular courses per sub-path, passed here as c1 and c2. -/
def ordered_courses (plan_is_psi : Bool) (c1 c2 : Course) (free_block : List Course) :
    List Course :=
  if plan_is_psi then c1 :: (free_block ++ FIXED_COMPONENTS)
  else c1 :: c2 :: (free_block ++ FIXED_COMPONENTS)

/-- Python substring containment `needle in hay` on the character lists. -/
def strContainsSub (hay needle : String) : Bool :=
  (List.range (hay.data.length + 1)).any
    (fun i => decide ((hay.data.drop i).take needle.data.length = needle.data))

/-- Manual free-choice entry: the per-slot form fields (app2.py lines 1144-1152). -/
structure ManualEntry where
  name : String
  code : String
  dept : String
  cfu : Nat
  year : String
  sem : String
deriving DecidableEq

/-- The per-slot error messages appended by the manual-entry checks
(app2.py lines 1161-1191), each carrying the offending slot index. -/
inductive ManualError where
  | restrictedName (slot : Nat)
  | dupCurricularCode (slot : Nat)
  | dupCurricularName (slot : Nat)
  | bannedCode (slot : Nat)
  | dupCustomCode (slot : Nat)
  | dupCustomName (slot : Nat)
deriving DecidableEq

/-- State threaded through the manual-entry loop (app2.py lines 1132-1138). -/
structure MState where
  valid : Bool
  errors : List ManualError
  seenCodes : List String
  seenNames : List String
  customFree : List Course
deriving DecidableEq

/-- Initial state of the manual-entry loop. -/
def initMState : MState := ⟨true, [], [], [], []⟩

/-- Required-fields check (app2.py lines 1155-1156). -/
def step_required (e : ManualEntry) (st : MState) : MState :=
  if ¬(e.name ≠ "" ∧ e.code ≠ "" ∧ e.dept ≠ "") then { st with valid := false } else st

/-- Restricted-name check (app2.py lines 1161-1164): ban the case-insensitive
substring "italian" in the course name. -/
def step_italian (i : Nat) (e : ManualEntry) (st : MState) : MState :=
  if normalize_name e.name ≠ "" ∧ strContainsSub (normalize_name e.name) "italian" then
    { st with valid := false, errors := st.errors ++ [.restrictedName i] }
  else st

/-- Curricular code-collision check (app2.py lines 1167-1169). -/
def step_dup_curr_code (cc : List String) (i : Nat) (e : ManualEntry) (st : MState) : MState :=
  if normalize_code e.code ≠ "" ∧ normalize_code e.code ∈ cc then
    { st with valid := false, errors := st.errors ++ [.dupCurricularCode i] }
  else st

/-- Curricular name-collision check (app2.py lines 1170-1172). -/
def step_dup_curr_name (cn : List String) (i : Nat) (e : ManualEntry) (st : MState) : MState :=
  if normalize_name e.name ≠ "" ∧ normalize_name e.name ∈ cn then
    { st with valid := false, errors := st.errors ++ [.dupCurricularName i] }
  else st

/-- Path-specific exclusion check (app2.py lines 1175-1177). -/
def step_banned (banned : List String) (i : Nat) (e : ManualEntry) (st : MState) : MState :=
  if normalize_code e.code ≠ "" ∧ normalize_code e.code ∈ banned then
    { st with valid := false, errors := st.errors ++ [.bannedCode i] }
  else st

/-- Duplicate-code check among the custom entries (app2.py lines 1180-1185). -/
def step_seen_code (i : Nat) (e : ManualEntry) (st : MState) : MState :=
  if normalize_code e.code ≠ "" then
    if normalize_code e.code ∈ st.seenCodes then
      { st with valid := false, errors := st.errors ++ [.dupCustomCode i] }
    else { st with seenCodes := st.seenCodes ++ [normalize_code e.code] }
  else st

/-- Duplicate-name check among the custom entries (app2.py lines 1186-1191). -/
def step_seen_name (i : Nat) (e : ManualEntry) (st : MState) : MState :=
  if normalize_name e.name ≠ "" then
    if normalize_name e.name ∈ st.seenNames then
      { st with valid := false, errors := st.errors ++ [.dupCustomName i] }
    else { st with seenNames := st.seenNames ++ [normalize_name e.name] }
  else st

/-- Appending the entered course (app2.py lines 1193-1196). -/
def step_append_course (e : ManualEntry) (st : MState) : MState :=
  { st with customFree := st.customFree ++ [make_course e.name e.code e.cfu e.dept e.year e.sem []] }

/-- One iteration of the manual-entry loop body (app2.py lines 1140-1196). -/
def check_entry (cc cn banned : List String) (i : Nat) (e : ManualEntry) (st : MState) : MState :=
  step_append_course e
    (step_seen_name i e
      (step_seen_code i e
        (step_banned banned i e
          (step_dup_curr_name cn i e
            (step_dup_curr_code cc i e
              (step_italian i e
                (step_required e st)))))))

/-- The full manual-entry loop over all slots (app2.py lines 1140-1196). -/
def run_manual_checks (cc cn banned : List String) (entries : List ManualEntry) : MState :=
  entries.enum.foldl (fun st ie => check_entry cc cn banned ie.1 ie.2 st) initMState

/-- can_generate_custom (app2.py lines 1237-1249). -/
def can_generate_custom (plan_is_psi : Bool) (curricular_list : List Course)
    (banned : List String) (entries : List ManualEntry) : Bool :=
  let st := run_manual_checks (curr_codes curricular_list) (curr_names curricular_list)
    banned entries
  let custom_free := st.customFree
  let total := current_total curricular_list custom_free
  st.valid
  && custom_free.all (fun cf =>
      decide (cf.name ≠ "") && decide (cf.code ≠ "") && decide (cf.dept ≠ ""))
  && custom_free.all (fun cf =>
      !((curr_codes curricular_list).contains (normalize_code cf.code))
      && !((curr_names curricular_list).contains (normalize_name cf.name)))
  && custom_free.all (fun cf => !(banned.contains (normalize_code cf.code)))
  && (!plan_is_psi || decide (total ≥ 60))
  && decide (total ≤ 66)

/-- Model of splitting on a separator character, matching Python `str.split(sep)`. -/
def splitOnChar (sep : Char) : List Char → List (List Char)
  | [] => [[]]
  | c :: rest =>
    let r := splitOnChar sep rest
    if c = sep then [] :: r
    else
      match r with
      | [] => [[c]]
      | h :: t => (c :: h) :: t

/-- Body of a Python integer literal after the first digit: digits with single
underscores allowed between digits. -/
def pyDigitsTail : List Char → Bool
  | [] => true
  | '_' :: c :: rest => (decide ('0' ≤ c) && decide (c ≤ '9')) && pyDigitsTail rest
  | c :: rest => (decide ('0' ≤ c) && decide (c ≤ '9')) && pyDigitsTail rest

/-- A valid Python unsigned digit string: nonempty, starting with a digit. -/
def pyDigitsOk : List Char → Bool
  | [] => false
  | c :: rest => (decide ('0' ≤ c) && decide (c ≤ '9')) && pyDigitsTail rest

/-- Numeric value of a digit string, skipping the underscores. -/
def digitsVal (l : List Char) : Nat :=
  (l.filter (fun c => decide ('0' ≤ c) && decide (c ≤ '9'))).foldl
    (fun acc c => 10 * acc + (c.toNat - 48)) 0

/-- Model of Python `int(s)`: strip whitespace, optional sign, digit string;
`none` models the ValueError. -/
def pyIntParse (l : List Char) : Option Int :=
  let t := pyStrip l
  match t with
  | '+' :: rest => if pyDigitsOk rest then some (digitsVal rest : Int) else none
  | '-' :: rest => if pyDigitsOk rest then some (-(digitsVal rest : Int)) else none
  | _ => if pyDigitsOk t then some (digitsVal t : Int) else none

/-- Model of Python `str.zfill(w)` on an unsigned digit string. -/
def zfillChars (w : Nat) (l : List Char) : List Char :=
  List.replicate (w - l.length) '0' ++ l

/-- academic_year_to_aa_format (app2.py lines 70-78): convert "2025-2026" to
"2025/26"; on no hyphen, a split into other than two parts, or an unparsable
second part, return the input unchanged (the caught exception). -/
def academic_year_to_aa_format (academic_year : String) : String :=
  if academic_year.data.contains '-' then
    match splitOnChar '-' academic_year.data with
    | [y1, y2] =>
      match pyIntParse y2 with
      | some n => ⟨y1 ++ '/' :: zfillChars 2 (natDigits (Int.emod n 100).toNat)⟩
      | none => academic_year
    | _ => academic_year
  else academic_year

/-- addFreeChoiceCourse (app2.py lines 964-974): returns the new pool and a
success flag; on a missing field or a duplicate name the pool is unchanged and
the flag is false (the caller-visible error). -/
def add_free_choice_course (pool : List Course) (f_name f_code : String) (f_cfu : Nat)
    (f_dept f_year f_sem : String) (links : List String) : List Course × Bool :=
  if f_name ≠ "" ∧ f_code ≠ "" then
    if pool.all (fun fc => fc.name ≠ f_name) then
      (pool ++ [make_course f_name f_code f_cfu f_dept f_year f_sem links], true)
    else (pool, false)
  else (pool, false)

/-- Catalog fixture: Advanced Statistical Learning and Modeling (12 CFU). -/
def cASLM : Course :=
  make_course "Advanced Statistical Learning and Modeling" "U5450" 12
    "DIETI – LM Data Science" "Second" "first" []

/-- Catalog fixture: Physics Informed Machine Learning (6 CFU). -/
def cPIML : Course :=
  make_course "Physics Informed Machine Learning" "U****" 6
    "DIETI - LM Data Science" "Second" "second" []

/-- Pool fixture: Computational Statistical and Generalized Linear Models (12 CFU). -/
def cCSGLM : Course :=
  make_course "Computational Statistical and Generalized Linear Models" "U5453" 12
    "DIETI – LM Data Science" "Second" "I" []

/-- Pool fixture: Astroinformatics (6 CFU). -/
def cAstro : Course :=
  make_course "Astroinformatics" "U1205" 6 "DFEP – LM Fisica" "Second" "II" []

/-- Pool fixture: Biometric Systems (6 CFU). -/
def cBiom : Course :=
  make_course "Biometric Systems" "U3525" 6 "DIETI – LM Informatica" "Second" "II" []

/-- Manual-entry fixture matching spec Scenario C. -/
def eItalian : ManualEntry :=
  ⟨"Advanced Italian Economics", "U9999", "DIETI", 6, "Second", "First"⟩

/-- C1: with the required free-choice count met, generation is blocked exactly
when the credit excess is over 6 or PSI mode is below the 60-credit floor; a
soft overage of 1 to 6 credits yields the warning message and does not block. -/
theorem C1_budget_gate (plan_is_psi : Bool) (curricular_list sel : List Course)
    (hlen : sel.length = n_free_required plan_is_psi) :
    (can_generate_catalogue plan_is_psi false sel curricular_list = false ↔
      (excess (current_total curricular_list sel) > 6 ∨
        (plan_is_psi = true ∧ current_total curricular_list sel < 60))) ∧
    (0 < excess (current_total curricular_list sel) →
      excess (current_total curricular_list sel) ≤ 6 →
      can_generate_catalogue plan_is_psi false sel curricular_list = true ∧
      overage_msg (current_total curricular_list sel) = OverageMsg.warnMsg) := by
  constructor
  · cases plan_is_psi <;>
      simp [can_generate_catalogue, excess, hlen, Nat.zero_max] <;> omega
  · intro h1 h2
    refine ⟨?_, ?_⟩
    · cases plan_is_psi <;>
        simp_all [can_generate_catalogue, excess, Nat.zero_max] <;> omega
    · simp_all [overage_msg]

/-- Witness for C1 at a concrete Standard-mode soft overage of 6 credits. -/
theorem C1_budget_gate_w :
    can_generate_catalogue false false [cCSGLM, cAstro] [cASLM, cPIML] = true ∧
    overage_msg (current_total [cASLM, cPIML] [cCSGLM, cAstro]) = OverageMsg.warnMsg :=
  (C1_budget_gate false [cASLM, cPIML] [cCSGLM, cAstro] (by decide)).2 (by decide) (by decide)

/-- C3: the catalogue-mode generation gate admits a plan exactly when the
free-choice count equals n and the Budget Evaluator blocking flag, stated as
in the spec, is false; the two checks are independent conjuncts. -/
theorem C3_admitted_iff (plan_is_psi : Bool) (sel curricular_list : List Course) :
    can_generate_catalogue plan_is_psi false sel curricular_list = true ↔
      (sel.length = n_free_required plan_is_psi ∧
        budget_blocking_spec plan_is_psi (current_total curricular_list sel) = false) := by
  cases plan_is_psi <;>
    simp [can_generate_catalogue, budget_blocking_spec, excess, Nat.zero_max] <;> omega

/-- C4: the composer emits exactly seven rows, in PSI mode the single
curricular course, the three free choices and the three fixed components in
order, in Standard mode both curricular courses, the two free choices and the
three fixed components in order; the fixed components are always the last
three rows. -/
theorem C4_composer_shape (c1 c2 f1 f2 f3 g1 g2 : Course) :
    ordered_courses true c1 c2 [f1, f2, f3] = [c1, f1, f2, f3] ++ FIXED_COMPONENTS ∧
    (ordered_courses true c1 c2 [f1, f2, f3]).length = 7 ∧
    (ordered_courses true c1 c2 [f1, f2, f3]).drop 4 = FIXED_COMPONENTS ∧
    ordered_courses false c1 c2 [g1, g2] = [c1, c2, g1, g2] ++ FIXED_COMPONENTS ∧
    (ordered_courses false c1 c2 [g1, g2]).length = 7 ∧
    (ordered_courses false c1 c2 [g1, g2]).drop 4 = FIXED_COMPONENTS := by
  simp [ordered_courses, FIXED_COMPONENTS]

/-- C5: approval is forced by manual entry and by PSI mode, a Standard
catalogue plan with zero excess needs no approval, and the watermark is
attached exactly when approval is required. -/
theorem C5_requires_approval (plan_is_psi using_custom : Bool) (total : Nat) :
    (using_custom = true → requires_approval plan_is_psi using_custom total = true) ∧
    (plan_is_psi = true → requires_approval plan_is_psi using_custom total = true) ∧
    (plan_is_psi = false → using_custom = false → excess total = 0 →
      requires_approval plan_is_psi using_custom total = false) ∧
    (watermark_text (requires_approval plan_is_psi using_custom total) =
        some "To Be Approved" ↔
      requires_approval plan_is_psi using_custom total = true) := by
  refine ⟨?_, ?_, ?_, ?_⟩
  · intro h; simp [requires_approval, h]
  · intro h; simp [requires_approval, h]
  · intro h1 h2 h3; simp [requires_approval, h1, h2, h3]
  · cases h : requires_approval plan_is_psi using_custom total <;> simp [watermark_text, h]

/-- Witness for C5 at a Standard catalogue plan of exactly 60 credits. -/
theorem C5_requires_approval_w :
    requires_approval false false 60 = false :=
  (C5_requires_approval false false 60).2.2.1 rfl rfl (by decide)

/-- C2: a pool course passes the eligibility filter exactly when its
normalized code differs from every curricular code, its normalized name
differs from every curricular name, and its normalized code is not banned;
the output is an order-preserving subsequence of the pool, and a sub-path
without a ban rule contributes the empty ban set. -/
theorem C2_eligibility (pool curricular_list : List Course) (banned : List String) :
    (∀ fc, fc ∈ available_free_courses pool curricular_list banned ↔
      (fc ∈ pool ∧
        (∀ c ∈ curricular_list, normalize_code fc.code ≠ normalize_code c.code) ∧
        (∀ c ∈ curricular_list, normalize_name fc.name ≠ normalize_name c.name) ∧
        normalize_code fc.code ∉ banned)) ∧
    (available_free_courses pool curricular_list banned).Sublist pool ∧
    (∀ (bbs : List (String × List String)) (sub : String),
      bbs.lookup sub = none → banned_codes bbs sub = []) := by
  refine ⟨?_, List.filter_sublist _, ?_⟩
  · intro fc
    simp only [available_free_courses, curr_codes, curr_names, List.mem_filter,
      Bool.and_eq_true, Bool.not_eq_true', List.contains_eq_any_beq, List.any_map,
      List.any_eq_false, Function.comp, beq_iff_eq, List.elem_iff, List.mem_map,
      not_exists, not_and, decide_eq_true_eq]
    constructor
    · rintro ⟨hp, ⟨h1, h2⟩, h3⟩
      exact ⟨hp, fun c hc => h1 _ ⟨c, hc, rfl⟩, fun c hc => h2 _ ⟨c, hc, rfl⟩,
        fun hm => h3 _ hm rfl⟩
    · rintro ⟨hp, h1, h2, h3⟩
      refine ⟨hp, ⟨?_, ?_⟩, ?_⟩
      · rintro x ⟨a, ha, rfl⟩ hfx
        exact h1 a ha hfx
      · rintro x ⟨a, ha, rfl⟩ hfx
        exact h2 a ha hfx
      · intro x hx hfx
        exact h3 (hfx ▸ hx)
  · intro bbs sub h
    simp [banned_codes, h]

/-- Witness for C2: a sub-path key absent from the ban table yields the empty
ban set. -/
theorem C2_eligibility_w :
    banned_codes [("PDS ISY - CURRICULUM INTELLIGENT SYSTEMS", ["U7219"])]
      "PDS ECO - CURRICULUM PUBLIC ADMINISTRATION, ECONOMY AND MANAGEMENT" = [] :=
  (C2_eligibility [] [] []).2.2
    [("PDS ISY - CURRICULUM INTELLIGENT SYSTEMS", ["U7219"])]
    "PDS ECO - CURRICULUM PUBLIC ADMINISTRATION, ECONOMY AND MANAGEMENT" (by decide)

/-- C6 counterexample: with the pool-ordered available list [Astro, Biom] and
the labels selected in the order [Biom, Astro], the sequence handed to the
composer is [Astro, Biom] — the pool order — which differs from the insertion
order [Biom, Astro] demanded by the claim. -/
theorem C6_insertion_order_cex :
    selected_free [cAstro, cBiom] [course_label cBiom, course_label cAstro] =
      [cAstro, cBiom] ∧
    selected_free_by_insertion [cAstro, cBiom]
        [course_label cBiom, course_label cAstro] = [cBiom, cAstro] ∧
    selected_free [cAstro, cBiom] [course_label cBiom, course_label cAstro] ≠
      selected_free_by_insertion [cAstro, cBiom]
        [course_label cBiom, course_label cAstro] := by
  refine ⟨by decide, by decide, by decide⟩

/-- C6 amended: the free-choice sequence handed to the composer follows the
order of the eligibility output (the pool order): it is an order-preserving
subsequence of the available list and is unchanged by reordering the selected
labels. -/
theorem C6_pool_order (available : List Course) (labels labels' : List String)
    (h : ∀ s, s ∈ labels ↔ s ∈ labels') :
    selected_free available labels = selected_free available labels' ∧
    (selected_free available labels).Sublist available := by
  refine ⟨?_, List.filter_sublist _⟩
  unfold selected_free
  apply List.filter_congr
  intro c _
  apply Bool.eq_iff_iff.mpr
  constructor
  · intro hc
    exact List.elem_iff.2 ((h _).1 (List.elem_iff.1 hc))
  · intro hc
    exact List.elem_iff.2 ((h _).2 (List.elem_iff.1 hc))

/-- Witness for C6 amended: swapping the two selected labels leaves the
composed free-choice sequence unchanged. -/
theorem C6_pool_order_w :
    selected_free [cAstro, cBiom] [course_label cBiom, course_label cAstro] =
      selected_free [cAstro, cBiom] [course_label cAstro, course_label cBiom] ∧
    (selected_free [cAstro, cBiom]
        [course_label cBiom, course_label cAstro]).Sublist [cAstro, cBiom] :=
  C6_pool_order [cAstro, cBiom] [course_label cBiom, course_label cAstro]
    [course_label cAstro, course_label cBiom]
    (by intro s; constructor <;> (intro hs; simp only [List.mem_cons] at hs ⊢; tauto))

/-- C9: adding a free-choice course is a no-op with a false success flag when a
required field is missing or some pool course already carries the entered
name, and the operation preserves uniqueness of the pool by name. -/
theorem C9_add_unique (pool : List Course) (f_name f_code : String) (f_cfu : Nat)
    (f_dept f_year f_sem : String) (links : List String) :
    ((f_name = "" ∨ f_code = "" ∨ ∃ fc ∈ pool, fc.name = f_name) →
      add_free_choice_course pool f_name f_code f_cfu f_dept f_year f_sem links =
        (pool, false)) ∧
    (pool.Pairwise (fun a b => a.name ≠ b.name) →
      (add_free_choice_course pool f_name f_code f_cfu f_dept f_year f_sem
          links).1.Pairwise (fun a b => a.name ≠ b.name)) := by
  constructor
  · intro h
    rcases h with h | h | ⟨fc, hfc, hname⟩
    · simp [add_free_choice_course, h]
    · simp [add_free_choice_course, h]
    · have hall : pool.all (fun fc => decide ¬(fc.name = f_name)) = false := by
        rw [List.all_eq_false]
        exact ⟨fc, hfc, by simp [hname]⟩
      unfold add_free_choice_course
      split
      · simp [hall]
        exact ⟨fc, hfc, hname⟩
      · rfl
  · intro hpw
    unfold add_free_choice_course
    split
    · split
      · rename_i hfields hall
        refine List.pairwise_append.2 ⟨hpw, List.pairwise_singleton _ _, ?_⟩
        intro a ha b hb
        simp only [List.mem_singleton] at hb
        subst hb
        have := List.all_eq_true.1 hall a ha
        simp only [make_course]
        exact of_decide_eq_true this
      · exact hpw
    · exact hpw

/-- Witness for C9: re-adding a course name already in the pool leaves the
pool unchanged with a false success flag. -/
theorem C9_add_unique_w :
    add_free_choice_course [cAstro] "Astroinformatics" "U9999" 6 "DIETI" "Second"
        "First" [] = ([cAstro], false) :=
  (C9_add_unique [cAstro] "Astroinformatics" "U9999" 6 "DIETI" "Second" "First" []).1
    (Or.inr (Or.inr ⟨cAstro, by decide, by decide⟩))

/-- Splitting always yields at least one part. -/
theorem splitOnChar_ne_nil (sep : Char) (l : List Char) : splitOnChar sep l ≠ [] := by
  induction l with
  | nil => simp [splitOnChar]
  | cons c rest ih =>
    simp only [splitOnChar]
    split
    · simp
    · cases h : splitOnChar sep rest with
      | nil => simp
      | cons hd tl => simp

/-- No part produced by splitting still contains the separator. -/
theorem mem_splitOnChar (sep : Char) (l : List Char) :
    ∀ part ∈ splitOnChar sep l, sep ∉ part := by
  induction l with
  | nil =>
    intro part hp
    simp only [splitOnChar, List.mem_singleton] at hp
    subst hp
    simp
  | cons c rest ih =>
    intro part hp
    simp only [splitOnChar] at hp
    by_cases hc : c = sep
    · rw [if_pos hc] at hp
      rcases List.mem_cons.1 hp with h | h
      · subst h; simp
      · exact ih part h
    · rw [if_neg hc] at hp
      cases h : splitOnChar sep rest with
      | nil => exact absurd h (splitOnChar_ne_nil sep rest)
      | cons hd tl =>
        rw [h] at hp
        rcases List.mem_cons.1 hp with h2 | h2
        · subst h2
          intro hmem
          rcases List.mem_cons.1 hmem with h3 | h3
          · exact hc h3.symm
          · have hhd : hd ∈ splitOnChar sep rest := by
              rw [h]; exact List.mem_cons_self hd tl
            exact ih hd hhd h3
        · have hpart : part ∈ splitOnChar sep rest := by
            rw [h]; exact List.mem_cons_of_mem hd h2
          exact ih part hpart

/-- The number of parts is the separator count plus one. -/
theorem splitOnChar_length (sep : Char) (l : List Char) :
    (splitOnChar sep l).length = l.count sep + 1 := by
  induction l with
  | nil => simp [splitOnChar]
  | cons c rest ih =>
    simp only [splitOnChar]
    by_cases hc : c = sep
    · rw [if_pos hc]
      simp only [List.length_cons, ih, List.count_cons]
      simp [hc]
    · rw [if_neg hc]
      cases h : splitOnChar sep rest with
      | nil => exact absurd h (splitOnChar_ne_nil sep rest)
      | cons hd tl =>
        rw [h] at ih
        simp only [List.length_cons] at ih ⊢
        have h1 : (c == sep) = false := beq_eq_false_iff_ne.2 hc
        have h2 : (sep == c) = false := beq_eq_false_iff_ne.2 (fun he => hc he.symm)
        simp [List.count_cons, h1, h2]
        omega

/-- Every character emitted by natDigitsAux is a decimal digit, never a hyphen. -/
theorem natDigitsAux_ne_hyphen (fuel : Nat) :
    ∀ n c, c ∈ natDigitsAux fuel n → c ≠ '-' := by
  induction fuel with
  | zero =>
    intro n c hc
    simp [natDigitsAux] at hc
  | succ fuel ih =>
    intro n c hc
    have hdig : ∀ k < 10, Char.ofNat (48 + k) ≠ '-' := by decide
    simp only [natDigitsAux] at hc
    split at hc
    · rename_i hn
      simp only [List.mem_singleton] at hc
      subst hc
      exact hdig n hn
    · rcases List.mem_append.1 hc with h | h
      · exact ih (n / 10) c h
      · simp only [List.mem_singleton] at h
        subst h
        exact hdig (n % 10) (Nat.mod_lt _ (by decide))

/-- A character list free of a given character has a false containment flag. -/
theorem contains_eq_false_of_not_mem {l : List Char} {a : Char} (h : a ∉ l) :
    l.contains a = false := by
  cases hc : l.contains a with
  | false => rfl
  | true => exact absurd (List.elem_iff.1 hc) h

/-- On an input without a hyphen the year formatter is the identity. -/
theorem aa_format_of_no_hyphen (s : String) (h : s.data.contains '-' = false) :
    academic_year_to_aa_format s = s := by
  unfold academic_year_to_aa_format
  rw [h]
  simp

/-- The year formatter either returns its input or returns a hyphen-free string. -/
theorem aa_format_result (s : String) :
    academic_year_to_aa_format s = s ∨
      (academic_year_to_aa_format s).data.contains '-' = false := by
  unfold academic_year_to_aa_format
  cases hc : s.data.contains '-' with
  | false => left; simp
  | true =>
    cases hsp : splitOnChar '-' s.data with
    | nil => left; simp [hsp]
    | cons y1 tl =>
      cases tl with
      | nil => left; simp [hsp]
      | cons y2 tl2 =>
        cases tl2 with
        | cons a b => left; simp [hsp]
        | nil =>
          cases hp : pyIntParse y2 with
          | none => left; simp [hsp, hp]
          | some n =>
            right
            simp only [hsp, hp, if_true]
            apply contains_eq_false_of_not_mem
            intro hmem
            rcases List.mem_append.1 hmem with h | h
            · have hy1 : y1 ∈ splitOnChar '-' s.data := by
                rw [hsp]; exact List.mem_cons_self y1 [y2]
              exact mem_splitOnChar '-' s.data y1 hy1 h
            · rcases List.mem_cons.1 h with h2 | h2
              · exact absurd h2.symm (by decide)
              · rcases List.mem_append.1 h2 with h3 | h3
                · have := List.eq_of_mem_replicate h3
                  exact absurd this (by decide)
                · exact natDigitsAux_ne_hyphen _ _ _ h3 rfl

/-- C8: the year formatter maps 2025-2026 to 2025/26, leaves hyphen-free input
unchanged, and applying it twice equals applying it once on every input. -/
theorem C8_aa_idempotent :
    academic_year_to_aa_format "2025-2026" = "2025/26" ∧
    (∀ s : String, s.data.contains '-' = false → academic_year_to_aa_format s = s) ∧
    (∀ s : String, academic_year_to_aa_format (academic_year_to_aa_format s) =
      academic_year_to_aa_format s) := by
  refine ⟨by decide, fun s h => aa_format_of_no_hyphen s h, fun s => ?_⟩
  rcases aa_format_result s with h | h
  · rw [h]
    exact h
  · exact aa_format_of_no_hyphen _ h

/-- Witness for C8: the already-formatted year 2025/26 is returned unchanged. -/
theorem C8_aa_idempotent_w :
    academic_year_to_aa_format "2025/26" = "2025/26" :=
  C8_aa_idempotent.2.1 "2025/26" (by decide)

/-- C10: an input with two or more hyphens, or a hyphenated input whose part
after the hyphen fails integer parsing, is returned unchanged; together with
the hyphen-free pass-through this covers totality of the formatter. -/
theorem C10_aa_passthrough (s : String) :
    (2 ≤ s.data.count '-' → academic_year_to_aa_format s = s) ∧
    (∀ y1 y2, splitOnChar '-' s.data = [y1, y2] → pyIntParse y2 = none →
      academic_year_to_aa_format s = s) := by
  constructor
  · intro h2
    unfold academic_year_to_aa_format
    cases hc : s.data.contains '-' with
    | false => simp
    | true =>
      have hl := splitOnChar_length '-' s.data
      cases hsp : splitOnChar '-' s.data with
      | nil => simp [hsp]
      | cons y1 tl =>
        cases tl with
        | nil => simp [hsp]
        | cons y2 tl2 =>
          cases tl2 with
          | nil =>
            rw [hsp] at hl
            simp only [List.length_cons, List.length_nil] at hl
            omega
          | cons a b => simp [hsp]
  · intro y1 y2 hsp hp
    unfold academic_year_to_aa_format
    cases hc : s.data.contains '-' with
    | false => simp
    | true => simp [hsp, hp]

/-- Witness for C10: a double-hyphen input and an input with a non-numeric
second part are both returned unchanged. -/
theorem C10_aa_passthrough_w :
    academic_year_to_aa_format "a-b-c" = "a-b-c" ∧
    academic_year_to_aa_format "2025-20x6" = "2025-20x6" :=
  ⟨(C10_aa_passthrough "a-b-c").1 (by decide),
   (C10_aa_passthrough "2025-20x6").2 ['2', '0', '2', '5'] ['2', '0', 'x', '6']
     (by decide) (by decide)⟩

/-- step_required keeps an already-false validity flag false and never touches
the error list. -/
theorem step_required_pres (e : ManualEntry) (st : MState) (x : ManualError)
    (h : st.valid = false) (hx : x ∈ st.errors) :
    (step_required e st).valid = false ∧ x ∈ (step_required e st).errors := by
  unfold step_required
  split
  · exact ⟨rfl, hx⟩
  · exact ⟨h, hx⟩

/-- step_italian keeps a false validity flag false and only appends errors. -/
theorem step_italian_pres (i : Nat) (e : ManualEntry) (st : MState) (x : ManualError)
    (h : st.valid = false) (hx : x ∈ st.errors) :
    (step_italian i e st).valid = false ∧ x ∈ (step_italian i e st).errors := by
  unfold step_italian
  split
  · exact ⟨rfl, List.mem_append_left _ hx⟩
  · exact ⟨h, hx⟩

/-- step_dup_curr_code keeps a false validity flag false and only appends errors. -/
theorem step_dup_curr_code_pres (cc : List String) (i : Nat) (e : ManualEntry)
    (st : MState) (x : ManualError) (h : st.valid = false) (hx : x ∈ st.errors) :
    (step_dup_curr_code cc i e st).valid = false ∧
    x ∈ (step_dup_curr_code cc i e st).errors := by
  unfold step_dup_curr_code
  split
  · exact ⟨rfl, List.mem_append_left _ hx⟩
  · exact ⟨h, hx⟩

/-- step_dup_curr_name keeps a false validity flag false and only appends errors. -/
theorem step_dup_curr_name_pres (cn : List String) (i : Nat) (e : ManualEntry)
    (st : MState) (x : ManualError) (h : st.valid = false) (hx : x ∈ st.errors) :
    (step_dup_curr_name cn i e st).valid = false ∧
    x ∈ (step_dup_curr_name cn i e st).errors := by
  unfold step_dup_curr_name
  split
  · exact ⟨rfl, List.mem_append_left _ hx⟩
  · exact ⟨h, hx⟩

/-- step_banned keeps a false validity flag false and only appends errors. -/
theorem step_banned_pres (banned : List String) (i : Nat) (e : ManualEntry)
    (st : MState) (x : ManualError) (h : st.valid = false) (hx : x ∈ st.errors) :
    (step_banned banned i e st).valid = false ∧ x ∈ (step_banned banned i e st).errors := by
  unfold step_banned
  split
  · exact ⟨rfl, List.mem_append_left _ hx⟩
  · exact ⟨h, hx⟩

/-- step_seen_code keeps a false validity flag false and only appends errors. -/
theorem step_seen_code_pres (i : Nat) (e : ManualEntry) (st : MState) (x : ManualError)
    (h : st.valid = false) (hx : x ∈ st.errors) :
    (step_seen_code i e st).valid = false ∧ x ∈ (step_seen_code i e st).errors := by
  unfold step_seen_code
  split
  · split
    · exact ⟨rfl, List.mem_append_left _ hx⟩
    · exact ⟨h, hx⟩
  · exact ⟨h, hx⟩

/-- step_seen_name keeps a false validity flag false and only appends errors. -/
theorem step_seen_name_pres (i : Nat) (e : ManualEntry) (st : MState) (x : ManualError)
    (h : st.valid = false) (hx : x ∈ st.errors) :
    (step_seen_name i e st).valid = false ∧ x ∈ (step_seen_name i e st).errors := by
  unfold step_seen_name
  split
  · split
    · exact ⟨rfl, List.mem_append_left _ hx⟩
    · exact ⟨h, hx⟩
  · exact ⟨h, hx⟩

/-- step_append_course touches neither the validity flag nor the error list. -/
theorem step_append_course_pres (e : ManualEntry) (st : MState) (x : ManualError)
    (h : st.valid = false) (hx : x ∈ st.errors) :
    (step_append_course e st).valid = false ∧ x ∈ (step_append_course e st).errors :=
  ⟨h, hx⟩

/-- A whole loop iteration keeps a false validity flag false and keeps every
error already recorded. -/
theorem check_entry_pres (cc cn banned : List String) (i : Nat) (e : ManualEntry)
    (st : MState) (x : ManualError) (h : st.valid = false) (hx : x ∈ st.errors) :
    (check_entry cc cn banned i e st).valid = false ∧
    x ∈ (check_entry cc cn banned i e st).errors := by
  unfold check_entry
  have h1 := step_required_pres e st x h hx
  have h2 := step_italian_pres i e _ x h1.1 h1.2
  have h3 := step_dup_curr_code_pres cc i e _ x h2.1 h2.2
  have h4 := step_dup_curr_name_pres cn i e _ x h3.1 h3.2
  have h5 := step_banned_pres banned i e _ x h4.1 h4.2
  have h6 := step_seen_code_pres i e _ x h5.1 h5.2
  have h7 := step_seen_name_pres i e _ x h6.1 h6.2
  exact step_append_course_pres e _ x h7.1 h7.2

/-- An entry whose normalized name holds the substring italian invalidates the
state and records the per-slot restricted-name error. -/
theorem check_entry_italian (cc cn banned : List String) (i : Nat) (e : ManualEntry)
    (st : MState) (hital : strContainsSub (normalize_name e.name) "italian" = true) :
    (check_entry cc cn banned i e st).valid = false ∧
    ManualError.restrictedName i ∈ (check_entry cc cn banned i e st).errors := by
  have hne : normalize_name e.name ≠ "" := by
    intro h0
    rw [h0] at hital
    exact absurd hital (by decide)
  unfold check_entry
  have h2 : (step_italian i e (step_required e st)).valid = false ∧
      ManualError.restrictedName i ∈ (step_italian i e (step_required e st)).errors := by
    unfold step_italian
    rw [if_pos ⟨hne, hital⟩]
    exact ⟨rfl, List.mem_append_right _ (List.mem_singleton.2 rfl)⟩
  have h3 := step_dup_curr_code_pres cc i e _ _ h2.1 h2.2
  have h4 := step_dup_curr_name_pres cn i e _ _ h3.1 h3.2
  have h5 := step_banned_pres banned i e _ _ h4.1 h4.2
  have h6 := step_seen_code_pres i e _ _ h5.1 h5.2
  have h7 := step_seen_name_pres i e _ _ h6.1 h6.2
  exact step_append_course_pres e _ _ h7.1 h7.2

/-- The loop keeps a false validity flag false and keeps recorded errors. -/
theorem foldl_check_pres (cc cn banned : List String) (l : List (Nat × ManualEntry))
    (st : MState) (x : ManualError) (h : st.valid = false) (hx : x ∈ st.errors) :
    (l.foldl (fun s ie => check_entry cc cn banned ie.1 ie.2 s) st).valid = false ∧
    x ∈ (l.foldl (fun s ie => check_entry cc cn banned ie.1 ie.2 s) st).errors := by
  induction l generalizing st with
  | nil => exact ⟨h, hx⟩
  | cons hd tl ih =>
    simp only [List.foldl_cons]
    have hk := check_entry_pres cc cn banned hd.1 hd.2 st x h hx
    exact ih _ hk.1 hk.2

/-- If some indexed entry in the loop has an italian name, the final state is
invalid and carries the restricted-name error for that slot. -/
theorem foldl_check_italian (cc cn banned : List String) (l : List (Nat × ManualEntry))
    (st : MState) (i : Nat) (e : ManualEntry) (hmem : (i, e) ∈ l)
    (hital : strContainsSub (normalize_name e.name) "italian" = true) :
    (l.foldl (fun s ie => check_entry cc cn banned ie.1 ie.2 s) st).valid = false ∧
    ManualError.restrictedName i ∈
      (l.foldl (fun s ie => check_entry cc cn banned ie.1 ie.2 s) st).errors := by
  induction l generalizing st with
  | nil => cases hmem
  | cons hd tl ih =>
    simp only [List.foldl_cons]
    rcases List.mem_cons.1 hmem with heq | hmem'
    · rw [← heq]
      have hk := check_entry_italian cc cn banned i e st hital
      exact foldl_check_pres cc cn banned tl _ _ hk.1 hk.2
    · exact ih _ hmem'

/-- C7: a manual entry whose name holds the case-insensitive substring italian
invalidates the whole submission, records the per-slot restricted-name error,
and blocks generation, whatever the other fields and entries are. -/
theorem C7_restricted_italian (plan_is_psi : Bool) (curricular_list : List Course)
    (banned : List String) (entries : List ManualEntry) (i : Nat) (e : ManualEntry)
    (hmem : (i, e) ∈ entries.enum)
    (hital : strContainsSub (normalize_name e.name) "italian" = true) :
    (run_manual_checks (curr_codes curricular_list) (curr_names curricular_list) banned
        entries).valid = false ∧
    ManualError.restrictedName i ∈
      (run_manual_checks (curr_codes curricular_list) (curr_names curricular_list) banned
        entries).errors ∧
    can_generate_custom plan_is_psi curricular_list banned entries = false := by
  have hk := foldl_check_italian (curr_codes curricular_list) (curr_names curricular_list)
    banned entries.enum initMState i e hmem hital
  have hv : (run_manual_checks (curr_codes curricular_list) (curr_names curricular_list)
      banned entries).valid = false := hk.1
  refine ⟨hv, hk.2, ?_⟩
  simp [can_generate_custom, hv]

/-- Witness for C7 at spec Scenario C: the single manual entry named Advanced
Italian Economics is rejected and generation is blocked. -/
theorem C7_restricted_italian_w :
    (run_manual_checks (curr_codes []) (curr_names []) [] [eItalian]).valid = false ∧
    ManualError.restrictedName 0 ∈
      (run_manual_checks (curr_codes []) (curr_names []) [] [eItalian]).errors ∧
    can_generate_custom false [] [] [eItalian] = false :=
  C7_restricted_italian false [] [] [eItalian] 0 eItalian (by decide) (by decide)

end StudyPlan
